import Mathlib

/-!
Verification development for the OFD preview rendering core.

The definitions below are a shallow embedding of the TypeScript sources:
  * `src/ofd/strategies/basic.strategy.ts` (`BasicOfdStrategy`)
  * `src/ofd/strategies/ofdrw-cli.strategy.ts` (`OfdrwCliStrategy`)
  * `src/ofd/ofd.service.ts` (`OfdService`)

JavaScript-level behaviour that the source relies on (string `split`,
`parseFloat`, truthiness of `||` / `?.` / `??`, `path.posix.normalize`
and `path.posix.join`) is modelled explicitly.  Numbers are rationals;
JavaScript `NaN` is modelled as `none` in `Option ℚ` (only finite
values matter to the source because every `parseFloat` result is
filtered through `Number.isFinite` or used opaquely).
-/

namespace OfdPreview

/-- JavaScript `a || b` on optional strings: `a` is kept when it is present
and truthy (non-empty); otherwise `b` is used. -/
def jsOrS (a b : Option String) : Option String :=
  match a with
  | some s => if s = "" then b else some s
  | none => b

/-- Split a character list at every character satisfying `p`, keeping
empty pieces (the primitive `String.split` behaviour). -/
def splitPredL (p : Char → Bool) : List Char → List (List Char)
  | [] => [[]]
  | c :: rest =>
    let r := splitPredL p rest
    if p c then [] :: r
    else
      match r with
      | h :: t => (c :: h) :: t
      | [] => [[c]]

/-- JavaScript `str.trim`. -/
def jsTrim (s : String) : String :=
  String.mk (((s.data.dropWhile (fun c => c.isWhitespace)).reverse.dropWhile
    (fun c => c.isWhitespace)).reverse)

/-- JavaScript `str.split(/\s+/)`: the string is cut at maximal runs of
whitespace; an empty field appears at the start (resp. end) exactly when
the string starts (resp. ends) with whitespace, and `"".split` is `[""]`. -/
def jsSplitWs (s : String) : List String :=
  if s = "" then [""]
  else
    let fields := ((splitPredL (fun c => c.isWhitespace) s.data).map String.mk).filter
      (fun t => t ≠ "")
    let lead :=
      match s.data.head? with
      | some c => if c.isWhitespace then [""] else []
      | none => []
    let trail :=
      match s.data.getLast? with
      | some c => if c.isWhitespace then [""] else []
      | none => []
    lead ++ fields ++ trail

/-- Numeric value of a digit list (most significant first). -/
def digitsVal (ds : List Char) : ℕ :=
  ds.foldl (fun acc c => acc * 10 + (c.toNat - '0'.toNat)) 0

/-- Split a leading run of decimal digits from a character list. -/
def readDigits : List Char → List Char × List Char
  | [] => ([], [])
  | c :: rest =>
    if c.isDigit then
      let (ds, r) := readDigits rest
      (c :: ds, r)
    else ([], c :: rest)

/-- Exponent part of a JavaScript float literal (`e`/`E` already
consumed): optional sign then digits; a malformed exponent contributes 0,
as `parseFloat` stops before the `e` in that case. -/
def readExp (cs : List Char) : Int :=
  let (sgn, cs') : Int × List Char :=
    match cs with
    | '-' :: r => (-1, r)
    | '+' :: r => (1, r)
    | r => (1, r)
  let (ds, _) := readDigits cs'
  if ds = [] then 0 else sgn * (digitsVal ds : Int)

/-- JavaScript `parseFloat` restricted to finite results: leading
whitespace is skipped, then an optional sign, digits with an optional
decimal point, and an optional exponent are read as a prefix.  `none`
models `NaN` (no numeric prefix) as well as non-finite results, matching
the source's `Number.isFinite` guard. -/
def jsParseFloat (s : String) : Option ℚ :=
  let cs := s.data.dropWhile (fun c => c.isWhitespace)
  let (sgn, cs) : ℚ × List Char :=
    match cs with
    | '-' :: r => (-1, r)
    | '+' :: r => (1, r)
    | r => (1, r)
  let (ip, cs) := readDigits cs
  let (fp, cs2) :=
    match cs with
    | '.' :: r => readDigits r
    | r => ([], r)
  if ip = [] ∧ fp = [] then none
  else
    let mant : ℚ := (digitsVal ip : ℚ) + (digitsVal fp : ℚ) / (10 : ℚ) ^ fp.length
    let e : Int :=
      match cs2 with
      | c :: r => if c = 'e' ∨ c = 'E' then readExp r else 0
      | [] => 0
    some (sgn * mant * (10 : ℚ) ^ e)

/-- Segment resolution loop of Node's `path.posix.normalize`: `""` and
`"."` segments are dropped, `".."` pops the previous segment unless the
accumulator is empty or already ends in `".."`, in which case it is kept
for relative paths (`allowAbove`) and dropped for absolute ones.  The
accumulator is kept reversed. -/
def normSegs (allowAbove : Bool) : List String → List String → List String
  | [], acc => acc
  | seg :: rest, acc =>
    if seg = "" ∨ seg = "." then normSegs allowAbove rest acc
    else if seg = ".." then
      match acc with
      | top :: accT =>
        if top = ".." then normSegs allowAbove rest (if allowAbove then ".." :: acc else acc)
        else normSegs allowAbove rest accT
      | [] => normSegs allowAbove rest (if allowAbove then [".."] else [])
    else normSegs allowAbove rest (seg :: acc)

/-- Split a character list at a separator character, keeping empty
pieces (single-character `String.splitOn`). -/
def splitOnCharL (sep : Char) : List Char → List (List Char)
  | [] => [[]]
  | c :: rest =>
    let r := splitOnCharL sep rest
    if c = sep then [] :: r
    else
      match r with
      | h :: t => (c :: h) :: t
      | [] => [[c]]

/-- Node `path.posix.normalize`. -/
def posixNormalize (p : String) : String :=
  if p = "" then "."
  else
    let isAbs := p.data.head? == some '/'
    let trailing := p.data.getLast? == some '/'
    let segs := (splitOnCharL '/' p.data).map String.mk
    let core := String.intercalate "/" (normSegs (!isAbs) segs []).reverse
    if core = "" then
      if isAbs then "/" else if trailing then "./" else "."
    else
      let core := if trailing then core ++ "/" else core
      if isAbs then "/" ++ core else core

/-- Node `path.posix.join` on two arguments: empty parts are dropped, the
rest are joined with `/` and normalized; joining nothing gives `"."`. -/
def posixJoin (a b : String) : String :=
  let parts := [a, b].filter (fun t => t ≠ "")
  if parts = [] then "." else posixNormalize (String.intercalate "/" parts)

/-- `startsWith` as list prefix testing (kernel-computable). -/
def strStartsWith (s pre : String) : Bool :=
  pre.data.isPrefixOf s.data

/-- `endsWith` as list suffix testing (kernel-computable). -/
def strEndsWith (s suf : String) : Bool :=
  suf.data.reverse.isPrefixOf s.data.reverse

/-- `BasicOfdStrategy.normalizeZipPath`: `path.posix.normalize` followed by
stripping one leading `"./"` and then one leading `"/"`. -/
def normalizeZipPath (p : String) : String :=
  let n := posixNormalize p
  let n := if strStartsWith n "./" then String.mk (n.data.drop 2) else n
  if strStartsWith n "/" then String.mk (n.data.drop 1) else n

/-- `BasicOfdStrategy.getDocDirectory`: everything up to and including the
last `/` of the normalized path, or `""` when there is no slash. -/
def getDocDirectory (p : String) : String :=
  let n := normalizeZipPath p
  let parts := (splitOnCharL '/' n.data).map String.mk
  if parts.length ≤ 1 then "" else String.intercalate "/" parts.dropLast ++ "/"

/-- `BasicOfdStrategy.normalizePageReference`: a falsy or
whitespace-only reference is rejected; otherwise the trimmed reference is
zip-normalized and, when a document directory is given, returned as-is if
it already starts with that directory (or equals it without the trailing
slash) and is otherwise joined onto the directory. -/
def normalizePageReference (value : Option String) (docDir : String) : Option String :=
  match value with
  | none => none
  | some v =>
    if v = "" then none
    else
      let trimmed := jsTrim v
      if trimmed = "" then none
      else
        let normalized := normalizeZipPath trimmed
        if docDir = "" then some normalized
        else
          let dn := if strEndsWith docDir "/" then docDir else docDir ++ "/"
          if strStartsWith normalized dn ∨ normalized = String.mk docDir.data.dropLast then
            some normalized
          else some (normalizeZipPath (posixJoin dn normalized))

/-- Value of a `<Content>` child of a page node: either a bare string or
an element carrying a `BaseLoc` attribute. -/
inductive ContentNode
  | strVal (s : String)
  | objVal (baseLoc : Option String)
deriving DecidableEq

/-- One `<Page>` node of the document body, restricted to the attributes
the source reads (`@_BaseLoc`/`@_baseLoc`/`@_base`, `@_File`/`@_file`,
and the nested `Content`).  Attribute values are modelled as strings
(the XML parser's numeric coercion is stringified back by the source
before use). -/
structure PageNode where
  baseLoc : Option String
  baseLocLower : Option String
  base : Option String
  file : Option String
  fileLower : Option String
  content : Option ContentNode
deriving DecidableEq

/-- The nested content candidate of a page node: a string `Content` is
always pushed, an object `Content` contributes its `BaseLoc` attribute
only when truthy. -/
def contentCandidates (p : PageNode) : List (Option String) :=
  match p.content with
  | some (ContentNode.strVal s) => [some s]
  | some (ContentNode.objVal bl) =>
    match bl with
    | some s => if s = "" then [] else [some s]
    | none => []
  | none => []

/-- Candidate references of a page node in the order the source builds
them: the `BaseLoc` attribute chain, the `File` attribute chain, then a
nested content reference. -/
def pageCandidates (p : PageNode) : List (Option String) :=
  [jsOrS (jsOrS p.baseLoc p.baseLocLower) p.base,
   jsOrS p.file p.fileLower] ++ contentCandidates p

/-- The outcome of trying one candidate: its normalized reference when
that is truthy. -/
def resolveCandOne (c : Option String) (docDir : String) : Option String :=
  match normalizePageReference c docDir with
  | some r => if r = "" then none else some r
  | none => none

/-- The loop of `resolvePagePath`: the first candidate whose normalized
reference is truthy wins. -/
def firstResolved (cands : List (Option String)) (docDir : String) : Option String :=
  match cands with
  | [] => none
  | c :: rest =>
    match normalizePageReference c docDir with
    | some r => if r = "" then firstResolved rest docDir else some r
    | none => firstResolved rest docDir

/-- `BasicOfdStrategy.resolvePagePath`. -/
def resolvePagePath (p : PageNode) (docDir : String) : Option String :=
  firstResolved (pageCandidates p) docDir

/-- `OfdMetadata` (`src/ofd/types.ts`). -/
structure OfdMetadata where
  pages : ℕ
  widthMM : ℚ
  heightMM : ℚ
  title : Option String
  author : Option String
  creationDate : Option String
  textExtractable : Bool
deriving DecidableEq

/-- `OfdDocumentCapabilities` (`src/ofd/types.ts`). -/
structure OfdDocumentCapabilities where
  text : Bool
  vector : Bool
  images : Bool
  annots : Bool
  sigs : Bool
deriving DecidableEq

/-- A text run as extracted to callers (`PageTextItem`): positions and
size are JavaScript numbers (`none` = `NaN`). -/
structure PageTextItem where
  text : String
  x : Option ℚ
  y : Option ℚ
  size : Option ℚ
deriving DecidableEq

/-- `ParsedDoc` (`src/ofd/types.ts`): metadata, producing engine, opaque
page references, capabilities, and the optional strategy-private state
(for the basic strategy, the normalized document path). -/
structure ParsedDoc where
  meta : OfdMetadata
  engine : String
  pageRefs : List String
  capabilities : OfdDocumentCapabilities
  internalDocumentPath : Option String
deriving DecidableEq

/-- Physical-box stage of `BasicOfdStrategy.parse`: the box string
(defaulted to `"0 0 210 297"` when absent or falsy) is split on
whitespace, tokens 2 and 3 are `parseFloat`ed, and each of width/height
falls back to 210 resp. 297 when its token is not a finite number. -/
def computeBox (physicalBox : Option String) : ℚ × ℚ :=
  let s :=
    match physicalBox with
    | some t => if t = "" then "0 0 210 297" else t
    | none => "0 0 210 297"
  let toks := jsSplitWs s
  let w := toks[2]?.bind jsParseFloat
  let h := toks[3]?.bind jsParseFloat
  (w.getD 210, h.getD 297)

/-- Document-body descriptor as read by the source: presence of
`CommonData`, the `PageArea` physical box string (`PhysicalBox` /
`PhysicalBoxs` collapsed through `||`), and the page node array
(`Document.Pages.Page`, already wrapped to a list; `null` entries are
represented as `none` and removed by the source's `filter(Boolean)`). -/
structure DocJson where
  hasCommonData : Bool
  physicalBox : Option String
  pages : List (Option PageNode)
deriving DecidableEq

/-- `DocBody` of the root descriptor: document info and the document
path chain `Document || DocRoot || docRoot`. -/
structure OfdDocBody where
  title : Option String
  author : Option String
  creationDate : Option String
  document : Option String
  docRootUpper : Option String
  docRootLower : Option String
deriving DecidableEq

/-- The document path chain `docBody.Document || docBody.DocRoot ||
docBody.docRoot`. -/
def docPathOf (b : OfdDocBody) : Option String :=
  jsOrS (jsOrS b.document b.docRootUpper) b.docRootLower

/-- Resolved page list of `BasicOfdStrategy.parse` step 5. -/
def basicPagePaths (dj : DocJson) (docDir : String) : List String :=
  (dj.pages.filterMap id).filterMap (fun p => resolvePagePath p docDir)

/-- The successful `ParsedDoc` of `BasicOfdStrategy.parse` for document
path `docPath` and descriptor `dj`. -/
def basicParseResult (body : OfdDocBody) (docPath : String) (dj : DocJson) : ParsedDoc :=
  let box := computeBox dj.physicalBox
  let pagePaths := basicPagePaths dj (getDocDirectory (normalizeZipPath docPath))
  { meta :=
      { pages := pagePaths.length
        widthMM := box.1
        heightMM := box.2
        title := jsOrS body.title none
        author := jsOrS body.author none
        creationDate := jsOrS body.creationDate none
        textExtractable := true }
    engine := "basic"
    pageRefs := pagePaths
    capabilities :=
      { text := true, vector := false, images := false
        annots := false, sigs := false }
    internalDocumentPath := some (normalizeZipPath docPath) }

/-- `BasicOfdStrategy.parse` from the parsed root descriptor on: the
archive/XML layer is abstracted as a partial map `archive` from a
normalized zip path to the parsed document-body descriptor.  (The stages
before this point — locating `OFD.xml` and its `DocBody` — only gate
reachability and are not touched by any claim.) -/
def basicParse (body : OfdDocBody) (archive : String → Option DocJson) :
    Except String ParsedDoc :=
  match docPathOf body with
  | none => Except.error "Invalid OFD: missing Document root path"
  | some docPath =>
    let documentPath := normalizeZipPath docPath
    match archive documentPath with
    | none => Except.error ("Invalid OFD: Document not found at " ++ docPath)
    | some dj =>
      if dj.hasCommonData = false then Except.error "Invalid OFD: missing CommonData"
      else
        let pagePaths := basicPagePaths dj (getDocDirectory documentPath)
        if pagePaths = [] then Except.error "Invalid OFD: no pages"
        else Except.ok (basicParseResult body docPath dj)

/-- A primitive value as produced by the XML parser for attributes and
text nodes (numeric-looking values are coerced to numbers;
`parseAttributeValue: true`). -/
inductive JsPrim
  | strV (s : String)
  | numV (q : ℚ)
deriving DecidableEq

/-- JavaScript truthiness of a primitive. -/
def jsPrimTruthy : JsPrim → Bool
  | JsPrim.strV s => s ≠ ""
  | JsPrim.numV q => q ≠ 0

/-- `String(v)` for a primitive. -/
def jsPrimToStr : JsPrim → String
  | JsPrim.strV s => s
  | JsPrim.numV q => toString q

/-- `parseFloat(v)` for a primitive (`none` = `NaN`). -/
def jsPrimParseFloat : JsPrim → Option ℚ
  | JsPrim.strV s => jsParseFloat s
  | JsPrim.numV q => some q

/-- One `<TextCode>` node: the `@_X`/`@_Y` attributes and the `#text`
value, each possibly absent. -/
structure TextCode where
  xAttr : Option JsPrim
  yAttr : Option JsPrim
  textVal : Option JsPrim
deriving DecidableEq

/-- One `<TextObject>` node: the `@_Size` attribute and its `TextCode`
children (absent / single / array all normalized to a list, exactly as
the source's `Array.isArray` wrap does). -/
structure TextObject where
  sizeAttr : Option JsPrim
  codes : List TextCode
deriving DecidableEq

/-- One `<Layer>` node restricted to its `TextObject` children. -/
structure Layer where
  textObjects : List TextObject
deriving DecidableEq

/-- One text run in traversal order (layer, then object, then code),
carrying the values the source computes in its inner loop. -/
structure TextRun where
  x : Option ℚ
  y : Option ℚ
  size : Option ℚ
  content : String
deriving DecidableEq

/-- The run extracted from one `TextCode` under an enclosing object's
size: `X`/`Y` default to 0 when the attribute is absent, the content is
the stringified `#text` (empty when absent). -/
def codeRun (size : Option ℚ) (c : TextCode) : TextRun :=
  { x := match c.xAttr with | some v => jsPrimParseFloat v | none => some 0
    y := match c.yAttr with | some v => jsPrimParseFloat v | none => some 0
    size := size
    content := jsPrimToStr (c.textVal.getD (JsPrim.strV "")) }

/-- Size of a text object: `parseFloat` of a truthy `@_Size`, else 12. -/
def objSize (o : TextObject) : Option ℚ :=
  match o.sizeAttr with
  | some v => if jsPrimTruthy v then jsPrimParseFloat v else some 12
  | none => some 12

/-- The traversal of `BasicOfdStrategy.renderPage` step 3: all layers in
document order, within each all text objects, within each all codes. -/
def collectRuns (layers : List Layer) : List TextRun :=
  ((layers.map (fun l => l.textObjects)).flatten).flatMap
    (fun o => o.codes.map (codeRun (objSize o)))

/-- Global replacement of one character by a string (each of the
source's escape patterns is a single character). -/
def replaceCharL (cs : List Char) (c : Char) (rep : List Char) : List Char :=
  cs.flatMap (fun x => if x = c then rep else [x])

/-- `BasicOfdStrategy.escapeXml`: the source's five chained global
replacements, in order. -/
def escapeXml (s : String) : String :=
  let cs := replaceCharL s.data '&' "&amp;".data
  let cs := replaceCharL cs '<' "&lt;".data
  let cs := replaceCharL cs '>' "&gt;".data
  let cs := replaceCharL cs '"' "&quot;".data
  String.mk (replaceCharL cs '\x27' "&apos;".data)

/-- `String(n)` for a JavaScript number in our model. -/
def jsNumToStr : Option ℚ → String
  | some q => toString q
  | none => "NaN"

/-- The SVG `<text>` element emitted for one run. -/
def svgTextElem (r : TextRun) : String :=
  "<text x=\"" ++ jsNumToStr r.x ++ "\" y=\"" ++ jsNumToStr r.y ++
    "\" font-size=\"" ++ jsNumToStr r.size ++ "\" fill=\"#000\">" ++
    escapeXml r.content ++ "</text>"

/-- The placeholder element emitted when a page has no text runs. -/
def placeholderElem : String :=
  "<text x=\"20\" y=\"40\" font-size=\"14\" fill=\"#c00\">This simple renderer supports only basic TextObject/TextCode. No renderable text found on this page.</text>"

/-- The `svgTexts` array after the zero-run fallback. -/
def renderSvgTexts (layers : List Layer) : List String :=
  let ts := (collectRuns layers).map svgTextElem
  if ts = [] then [placeholderElem] else ts

/-- The `PageTextItem` produced for one run (the content is the original,
unescaped text). -/
def runItem (r : TextRun) : PageTextItem :=
  { text := r.content, x := r.x, y := r.y, size := r.size }

/-- The extracted text list of `renderPage`. -/
def renderItems (layers : List Layer) : List PageTextItem :=
  (collectRuns layers).map runItem

/-- The assembled SVG document of `renderPage` step 6. -/
def renderSvg (meta : OfdMetadata) (layers : List Layer) : String :=
  "<?xml version=\"1.0\" encoding=\"UTF-8\"?>\n" ++
    "<svg xmlns=\"http://www.w3.org/2000/svg\" width=\"" ++ toString meta.widthMM ++
    "mm\" height=\"" ++ toString meta.heightMM ++ "mm\" viewBox=\"0 0 " ++
    toString meta.widthMM ++ " " ++ toString meta.heightMM ++
    "\" style=\"background:white\">" ++
    String.join (renderSvgTexts layers) ++ "</svg>"

/-- `RenderedPage` (`src/ofd/types.ts`). -/
structure RenderedPage where
  svg : String
  text : List PageTextItem
deriving DecidableEq

/-- `BasicOfdStrategy.renderPage`: the page reference is looked up in
`doc.pageRefs` (an out-of-range index or falsy entry fails), the
referenced entry is loaded from the archive (modelled as a partial map
from normalized zip paths to parsed page content), and the traversal
output is assembled. -/
def basicRenderPage (doc : ParsedDoc) (archive : String → Option (List Layer))
    (pageIndex : Int) : Except String RenderedPage :=
  let pageRef := if 0 ≤ pageIndex then doc.pageRefs[pageIndex.toNat]? else none
  match pageRef with
  | none => Except.error ("Page " ++ toString (pageIndex + 1) ++ " not found")
  | some pagePath =>
    if pagePath = "" then Except.error ("Page " ++ toString (pageIndex + 1) ++ " not found")
    else
      match archive (normalizeZipPath pagePath) with
      | none => Except.error ("Page not found: " ++ pagePath)
      | some layers =>
        Except.ok { svg := renderSvg doc.meta layers, text := renderItems layers }

/-- A document-level cache entry (`CacheEntryDoc` in `ofd.service.ts`):
the parsed document, the raw bytes read at capture time, the canonical
path key, and the file's modification time at capture time. -/
structure CacheEntryDoc where
  doc : ParsedDoc
  buf : String
  key : String
  mtimeMs : Int
deriving DecidableEq

/-- A page-level cache entry (`CacheEntryPage`): the rendered SVG and
text together with the document's modification time at capture time. -/
structure CacheEntryPage where
  svg : String
  text : List PageTextItem
  docMtimeMs : Int
deriving DecidableEq

/-- Lookup in an association-list map (the LRU cache's `get`; capacity
eviction and TTL are outside the claims' scope). -/
def mapGet {β : Type} (m : List (String × β)) (k : String) : Option β :=
  (m.find? (fun p => p.1 = k)).map (fun p => p.2)

/-- Overwriting insert (the LRU cache's `set`). -/
def mapSet {β : Type} (m : List (String × β)) (k : String) (v : β) :
    List (String × β) :=
  (k, v) :: m.filter (fun p => p.1 ≠ k)

/-- The two caches owned by `OfdService`. -/
structure SvcState where
  docCache : List (String × CacheEntryDoc)
  pageCache : List (String × CacheEntryPage)
deriving DecidableEq

/-- `OfdService.loadDoc`: a cached entry is returned untouched when its
captured mtime equals the file's current mtime; otherwise the freshly
read bytes are parsed (`Orchestrator.parse` abstracted as `parse`) and a
fresh entry keyed under the new mtime replaces any previous one.  The
third component counts parse invocations. -/
def loadDoc (st : SvcState) (key : String) (mtimeMs : Int) (bytes : String)
    (parse : String → Except String ParsedDoc) :
    Except String CacheEntryDoc × SvcState × ℕ :=
  let fresh := fun (_ : Unit) =>
    match parse bytes with
    | Except.error e => (Except.error e, st, 1)
    | Except.ok d =>
      let entry : CacheEntryDoc := { doc := d, buf := bytes, key := key, mtimeMs := mtimeMs }
      (Except.ok entry, { st with docCache := mapSet st.docCache key entry }, 1)
  match mapGet st.docCache key with
  | some existing =>
    if existing.mtimeMs = mtimeMs then (Except.ok existing, st, 0) else fresh ()
  | none => fresh ()

/-- The shared page-cache block that `getPage` and `getText` both inline
verbatim: a cached page entry is served only when its captured document
mtime equals the current one; otherwise the render result (`rres`) is
consulted and, on success, stored under the current mtime.  The third
component counts render invocations. -/
def pageFill (pc : List (String × CacheEntryPage)) (cacheKey : String) (mtimeMs : Int)
    (rres : Except String RenderedPage) :
    Except String CacheEntryPage × List (String × CacheEntryPage) × ℕ :=
  let fill := fun (_ : Unit) =>
    match rres with
    | Except.error e => (Except.error e, pc, 1)
    | Except.ok r =>
      let entry : CacheEntryPage := { svg := r.svg, text := r.text, docMtimeMs := mtimeMs }
      (Except.ok entry, mapSet pc cacheKey entry, 1)
  match mapGet pc cacheKey with
  | some pageEntry =>
    if pageEntry.docMtimeMs = mtimeMs then (Except.ok pageEntry, pc, 0) else fill ()
  | none => fill ()

/-- `OfdService.getPage` up to the SVG branch (the PNG/PDF conversions
are stateless post-processing of the same cached entry): returns the
served SVG body, the final state, and the parse and render invocation
counts.  `key`/`mtimeMs`/`bytes` model what `FileService.resolve` and
`readFileSync` supply for the request. -/
def getPage (st : SvcState) (key : String) (mtimeMs : Int) (bytes : String) (page : Int)
    (parse : String → Except String ParsedDoc)
    (render : String → ParsedDoc → Int → Except String RenderedPage) :
    Except String String × SvcState × ℕ × ℕ :=
  match loadDoc st key mtimeMs bytes parse with
  | (Except.error e, st1, pc) => (Except.error e, st1, pc, 0)
  | (Except.ok entry, st1, pc) =>
    if page < 1 ∨ page > (entry.doc.meta.pages : Int) then
      (Except.error "Invalid page index", st1, pc, 0)
    else
      let cacheKey := key ++ "#" ++ toString page
      match pageFill st1.pageCache cacheKey mtimeMs (render entry.buf entry.doc (page - 1)) with
      | (Except.error e, pc', rc) => (Except.error e, { st1 with pageCache := pc' }, pc, rc)
      | (Except.ok pe, pc', rc) =>
        (Except.ok pe.svg, { st1 with pageCache := pc' }, pc, rc)

/-- `OfdService.getText`: identical flow, returning the cached text
items. -/
def getText (st : SvcState) (key : String) (mtimeMs : Int) (bytes : String) (page : Int)
    (parse : String → Except String ParsedDoc)
    (render : String → ParsedDoc → Int → Except String RenderedPage) :
    Except String (List PageTextItem) × SvcState × ℕ × ℕ :=
  match loadDoc st key mtimeMs bytes parse with
  | (Except.error e, st1, pc) => (Except.error e, st1, pc, 0)
  | (Except.ok entry, st1, pc) =>
    if page < 1 ∨ page > (entry.doc.meta.pages : Int) then
      (Except.error "Invalid page index", st1, pc, 0)
    else
      let cacheKey := key ++ "#" ++ toString page
      match pageFill st1.pageCache cacheKey mtimeMs (render entry.buf entry.doc (page - 1)) with
      | (Except.error e, pc', rc) => (Except.error e, { st1 with pageCache := pc' }, pc, rc)
      | (Except.ok pe, pc', rc) =>
        (Except.ok pe.text, { st1 with pageCache := pc' }, pc, rc)

/-- The `capabilities` object of a CLI metadata response: each of the
five booleans may be omitted. -/
structure CliCaps where
  text : Option Bool
  vector : Option Bool
  images : Option Bool
  annots : Option Bool
  sigs : Option Bool
deriving DecidableEq

/-- A well-formed CLI metadata response (`CliMetadataResponse`): the
required `meta` object, and the optional `capabilities` and `pageRefs`
fields. -/
structure CliMetadataResponse where
  meta : OfdMetadata
  capabilities : Option CliCaps
  pageRefs : Option (List String)
deriving DecidableEq

/-- The CLI strategy's name. -/
def cliStrategyName : String := "ofdrw-cli"

/-- The synthetic page tokens `page-1 .. page-N`. -/
def syntheticPageRefs (n : ℕ) : List String :=
  (List.range n).map (fun idx => "page-" ++ toString (idx + 1))

/-- The `ParsedDoc` built by `OfdrwCliStrategy.parse` from a response:
`pageRefs` falls back to synthetic tokens when omitted or empty, and
each capability defaults to `true` through `?? true`. -/
def cliBuildDoc (r : CliMetadataResponse) : ParsedDoc :=
  { meta := r.meta
    engine := cliStrategyName
    pageRefs :=
      match r.pageRefs with
      | some refs => if 0 < refs.length then refs else syntheticPageRefs r.meta.pages
      | none => syntheticPageRefs r.meta.pages
    capabilities :=
      { text := ((r.capabilities.bind (fun c => c.text)).getD true)
        vector := ((r.capabilities.bind (fun c => c.vector)).getD true)
        images := ((r.capabilities.bind (fun c => c.images)).getD true)
        annots := ((r.capabilities.bind (fun c => c.annots)).getD true)
        sigs := ((r.capabilities.bind (fun c => c.sigs)).getD true) }
    internalDocumentPath := none }

/-- One observable filesystem action of the CLI strategy. -/
inductive FsEvent
  | mkdirEv (d : String)
  | writeEv (p : String)
  | execEv (args : List String)
  | readEv (p : String)
  | rmEv (d : String)
deriving DecidableEq

/-- `OfdrwCliStrategy.parse` as a trace-producing function.  `workdir`
is the unique temporary directory created for this invocation,
`execRes` the outcome of `execCli` (`error` covers a spawn failure, a
non-zero exit, and the timeout kill alike — all reject the same
promise), and `decodeMeta` models `safeJson` plus the `!parsed?.meta`
guard (`none` = malformed JSON or missing `meta`).  The `finally` block
runs `cleanupWorkdir` on every path, which removes the directory unless
`keepArtifacts` is set. -/
def cliParseRun (keepArtifacts : Bool) (workdir : String)
    (execRes : Except String String)
    (decodeMeta : String → Option CliMetadataResponse) :
    Except String ParsedDoc × List FsEvent :=
  let inputPath := workdir ++ "/input.ofd"
  let bodyEvs := [FsEvent.mkdirEv workdir, FsEvent.writeEv inputPath,
                  FsEvent.execEv ["metadata", inputPath]]
  let res : Except String ParsedDoc :=
    match execRes with
    | Except.error e => Except.error e
    | Except.ok stdout =>
      match decodeMeta (jsTrim stdout) with
      | none => Except.error "Invalid metadata response from OFDRW CLI"
      | some r => Except.ok (cliBuildDoc r)
  let cleanupEvs := if keepArtifacts then [] else [FsEvent.rmEv workdir]
  (res, bodyEvs ++ cleanupEvs)

/-- `OfdrwCliStrategy.renderPage` as a trace-producing function:
`svgRead` is the content of `<outputBase>.svg` when the CLI created it,
`jsonRead` the parsed text-item sidecar when present and valid.  An
empty or whitespace-only SVG is a failure.  As above, cleanup runs on
every path. -/
def cliRenderRun (keepArtifacts : Bool) (workdir : String) (pageIndex : Int)
    (execRes : Except String Unit) (svgRead : Option String)
    (jsonRead : Option (List PageTextItem)) :
    Except String RenderedPage × List FsEvent :=
  let inputPath := workdir ++ "/input.ofd"
  let outputBase := workdir ++ "/output-" ++ toString (pageIndex + 1)
  let bodyEvs := [FsEvent.mkdirEv workdir, FsEvent.writeEv inputPath,
                  FsEvent.execEv ["render", "--page", toString (pageIndex + 1),
                                  "--format", "svg", "--output", outputBase, inputPath]]
  let res : Except String RenderedPage :=
    match execRes with
    | Except.error e => Except.error e
    | Except.ok _ =>
      match svgRead with
      | none => Except.error ("ENOENT: no such file " ++ outputBase ++ ".svg")
      | some svg =>
        if svg = "" ∨ (jsTrim svg).length = 0 then
          Except.error "OFDRW CLI did not produce SVG output"
        else Except.ok { svg := svg, text := jsonRead.getD [] }
  let cleanupEvs := if keepArtifacts then [] else [FsEvent.rmEv workdir]
  (res, bodyEvs ++ cleanupEvs)

/-! ### Concrete sample inputs

Small closed inputs used to instantiate the theorems below. -/

/-- A one-page metadata record. -/
def sampleMeta : OfdMetadata :=
  { pages := 1, widthMM := 210, heightMM := 297, title := none, author := none
    creationDate := none, textExtractable := true }

/-- A one-page basic-engine document. -/
def sampleDoc : ParsedDoc :=
  { meta := sampleMeta, engine := "basic"
    pageRefs := ["Doc_0/Pages/Page_0/Content.xml"]
    capabilities :=
      { text := true, vector := false, images := false, annots := false, sigs := false }
    internalDocumentPath := some "Doc_0/Document.xml" }

/-- One extracted text item. -/
def sampleItem : PageTextItem := { text := "hi", x := some 0, y := some 0, size := some 12 }

/-- A rendered page. -/
def sampleRendered : RenderedPage := { svg := "<svg/>", text := [sampleItem] }

/-- A parse stub always producing `sampleDoc`. -/
def sampleParse : String → Except String ParsedDoc := fun _ => Except.ok sampleDoc

/-- A render stub always producing `sampleRendered`. -/
def sampleRender : String → ParsedDoc → Int → Except String RenderedPage :=
  fun _ _ _ => Except.ok sampleRendered

/-- The empty service state. -/
def emptySvc : SvcState := { docCache := [], pageCache := [] }

/-- A document cache entry captured at mtime 1. -/
def sampleEntry : CacheEntryDoc := { doc := sampleDoc, buf := "b", key := "k", mtimeMs := 1 }

/-- A page cache entry captured at document mtime 1. -/
def samplePageEntry : CacheEntryPage := { svg := "<svg/>", text := [sampleItem], docMtimeMs := 1 }

/-- A service state whose caches hold `sampleEntry` and `samplePageEntry`. -/
def svc1 : SvcState :=
  { docCache := [("k", sampleEntry)], pageCache := [("k#1", samplePageEntry)] }

/-- Page node of the C3 counterexample document. -/
def c3PageNode : PageNode :=
  { baseLoc := some "Pages/Page_0/Content.xml", baseLocLower := none, base := none
    file := none, fileLower := none, content := none }

/-- Document-body descriptor whose physical box has width 0. -/
def c3DocJson : DocJson :=
  { hasCommonData := true, physicalBox := some "0 0 0 297", pages := [some c3PageNode] }

/-- Root descriptor body pointing at `Doc_0/Document.xml`. -/
def c3Body : OfdDocBody :=
  { title := none, author := none, creationDate := none
    document := some "Doc_0/Document.xml", docRootUpper := none, docRootLower := none }

/-- Archive holding exactly the C3 document descriptor. -/
def c3Archive : String → Option DocJson :=
  fun p => if p = "Doc_0/Document.xml" then some c3DocJson else none

/-- A layer with no text objects (zero text runs). -/
def emptyLayer : Layer := { textObjects := [] }

/-- Archive holding one empty page for the render witnesses. -/
def emptyPageArchive : String → Option (List Layer) :=
  fun p => if p = "Doc_0/Pages/Page_0/Content.xml" then some [emptyLayer] else none

/-- Decoder stub for the CLI witnesses (always a malformed response). -/
def noMetaDecode : String → Option CliMetadataResponse := fun _ => none

/-! ### Helper lemmas -/

theorem mapGet_mapSet {β : Type} (m : List (String × β)) (k : String) (v : β) :
    mapGet (mapSet m k v) k = some v := by
  simp [mapGet, mapSet]

theorem loadDoc_ok {st : SvcState} {key : String} {m : Int} {bytes : String}
    {parse : String → Except String ParsedDoc} {e : CacheEntryDoc} {st' : SvcState} {n : ℕ}
    (h : loadDoc st key m bytes parse = (Except.ok e, st', n)) :
    mapGet st'.docCache key = some e ∧ e.mtimeMs = m ∧ st'.pageCache = st.pageCache := by
  unfold loadDoc at h
  rcases hg : mapGet st.docCache key with _ | existing
  · rw [hg] at h
    rcases hp : parse bytes with err | d
    · rw [hp] at h; simp at h
    · rw [hp] at h
      simp only [Prod.mk.injEq, Except.ok.injEq] at h
      obtain ⟨he, hst, _⟩ := h
      subst he; subst hst
      exact ⟨mapGet_mapSet _ _ _, rfl, rfl⟩
  · rw [hg] at h
    by_cases hm : existing.mtimeMs = m
    · simp only [hm, if_true, Prod.mk.injEq, Except.ok.injEq] at h
      obtain ⟨he, hst, _⟩ := h
      subst he; subst hst
      exact ⟨hg, hm, rfl⟩
    · simp only [hm, if_false] at h
      rcases hp : parse bytes with err | d
      · rw [hp] at h; simp at h
      · rw [hp] at h
        simp only [Prod.mk.injEq, Except.ok.injEq] at h
        obtain ⟨he, hst, _⟩ := h
        subst he; subst hst
        exact ⟨mapGet_mapSet _ _ _, rfl, rfl⟩

theorem pageFill_ok {pc : List (String × CacheEntryPage)} {ck : String} {m : Int}
    {rres : Except String RenderedPage} {pe : CacheEntryPage}
    {pc' : List (String × CacheEntryPage)} {n : ℕ}
    (h : pageFill pc ck m rres = (Except.ok pe, pc', n)) :
    mapGet pc' ck = some pe ∧ pe.docMtimeMs = m := by
  unfold pageFill at h
  rcases hg : mapGet pc ck with _ | pageEntry
  · rw [hg] at h
    rcases hr : rres with err | r
    · rw [hr] at h; simp at h
    · rw [hr] at h
      simp only [Prod.mk.injEq, Except.ok.injEq] at h
      obtain ⟨he, hpc, _⟩ := h
      subst he; subst hpc
      exact ⟨mapGet_mapSet _ _ _, rfl⟩
  · rw [hg] at h
    by_cases hm : pageEntry.docMtimeMs = m
    · simp only [hm, if_true, Prod.mk.injEq, Except.ok.injEq] at h
      obtain ⟨he, hpc, _⟩ := h
      subst he; subst hpc
      exact ⟨by rw [hg], hm⟩
    · simp only [hm, if_false] at h
      rcases hr : rres with err | r
      · rw [hr] at h; simp at h
      · rw [hr] at h
        simp only [Prod.mk.injEq, Except.ok.injEq] at h
        obtain ⟨he, hpc, _⟩ := h
        subst he; subst hpc
        exact ⟨mapGet_mapSet _ _ _, rfl⟩

theorem getPage_ok_state {st : SvcState} {key : String} {m : Int} {bytes : String}
    {page : Int} {parse : String → Except String ParsedDoc}
    {render : String → ParsedDoc → Int → Except String RenderedPage}
    {b : String} {st' : SvcState} {pcnt rcnt : ℕ}
    (h : getPage st key m bytes page parse render = (Except.ok b, st', pcnt, rcnt)) :
    ∃ e pe, mapGet st'.docCache key = some e ∧ e.mtimeMs = m ∧
      ¬(page < 1 ∨ page > (e.doc.meta.pages : Int)) ∧
      mapGet st'.pageCache (key ++ "#" ++ toString page) = some pe ∧
      pe.docMtimeMs = m ∧ b = pe.svg := by
  unfold getPage at h
  rcases hl : loadDoc st key m bytes parse with ⟨res, st1, n⟩
  rw [hl] at h
  rcases res with err | entry
  · simp at h
  · by_cases hr : page < 1 ∨ page > (entry.doc.meta.pages : Int)
    · simp only [hr, if_true] at h; simp at h
    · simp only [hr, if_false] at h
      rcases hf : pageFill st1.pageCache (key ++ "#" ++ toString page) m
          (render entry.buf entry.doc (page - 1)) with ⟨pres, pc', cnt⟩
      rw [hf] at h
      rcases pres with err | pe
      · simp at h
      · simp only [Prod.mk.injEq, Except.ok.injEq] at h
        obtain ⟨hb, hst, _⟩ := h
        obtain ⟨h1, h2, _⟩ := loadDoc_ok hl
        obtain ⟨h4, h5⟩ := pageFill_ok hf
        refine ⟨entry, pe, ?_, h2, hr, ?_, h5, hb.symm⟩
        · rw [← hst]; exact h1
        · rw [← hst]; exact h4

theorem getText_ok_state {st : SvcState} {key : String} {m : Int} {bytes : String}
    {page : Int} {parse : String → Except String ParsedDoc}
    {render : String → ParsedDoc → Int → Except String RenderedPage}
    {items : List PageTextItem} {st' : SvcState} {pcnt rcnt : ℕ}
    (h : getText st key m bytes page parse render = (Except.ok items, st', pcnt, rcnt)) :
    ∃ e pe, mapGet st'.docCache key = some e ∧ e.mtimeMs = m ∧
      ¬(page < 1 ∨ page > (e.doc.meta.pages : Int)) ∧
      mapGet st'.pageCache (key ++ "#" ++ toString page) = some pe ∧
      pe.docMtimeMs = m ∧ items = pe.text := by
  unfold getText at h
  rcases hl : loadDoc st key m bytes parse with ⟨res, st1, n⟩
  rw [hl] at h
  rcases res with err | entry
  · simp at h
  · by_cases hr : page < 1 ∨ page > (entry.doc.meta.pages : Int)
    · simp only [hr, if_true] at h; simp at h
    · simp only [hr, if_false] at h
      rcases hf : pageFill st1.pageCache (key ++ "#" ++ toString page) m
          (render entry.buf entry.doc (page - 1)) with ⟨pres, pc', cnt⟩
      rw [hf] at h
      rcases pres with err | pe
      · simp at h
      · simp only [Prod.mk.injEq, Except.ok.injEq] at h
        obtain ⟨hb, hst, _⟩ := h
        obtain ⟨h1, h2, _⟩ := loadDoc_ok hl
        obtain ⟨h4, h5⟩ := pageFill_ok hf
        refine ⟨entry, pe, ?_, h2, hr, ?_, h5, hb.symm⟩
        · rw [← hst]; exact h1
        · rw [← hst]; exact h4

theorem getPage_cached {st : SvcState} {key : String} {m : Int} {bytes : String}
    {page : Int} {parse : String → Except String ParsedDoc}
    {render : String → ParsedDoc → Int → Except String RenderedPage}
    {e : CacheEntryDoc} {pe : CacheEntryPage}
    (hd : mapGet st.docCache key = some e) (hm : e.mtimeMs = m)
    (hr : ¬(page < 1 ∨ page > (e.doc.meta.pages : Int)))
    (hp : mapGet st.pageCache (key ++ "#" ++ toString page) = some pe)
    (hpm : pe.docMtimeMs = m) :
    getPage st key m bytes page parse render = (Except.ok pe.svg, st, 0, 0) := by
  unfold getPage loadDoc pageFill
  simp [hd, hm, hr, hp, hpm]

theorem getText_cached {st : SvcState} {key : String} {m : Int} {bytes : String}
    {page : Int} {parse : String → Except String ParsedDoc}
    {render : String → ParsedDoc → Int → Except String RenderedPage}
    {e : CacheEntryDoc} {pe : CacheEntryPage}
    (hd : mapGet st.docCache key = some e) (hm : e.mtimeMs = m)
    (hr : ¬(page < 1 ∨ page > (e.doc.meta.pages : Int)))
    (hp : mapGet st.pageCache (key ++ "#" ++ toString page) = some pe)
    (hpm : pe.docMtimeMs = m) :
    getText st key m bytes page parse render = (Except.ok pe.text, st, 0, 0) := by
  unfold getText loadDoc pageFill
  simp [hd, hm, hr, hp, hpm]

theorem basicParse_ok_eq {body : OfdDocBody} {archive : String → Option DocJson}
    {dp : String} {dj : DocJson}
    (hdp : docPathOf body = some dp)
    (harch : archive (normalizeZipPath dp) = some dj)
    (hcd : dj.hasCommonData = true)
    (hpp : basicPagePaths dj (getDocDirectory (normalizeZipPath dp)) ≠ []) :
    basicParse body archive = Except.ok (basicParseResult body dp dj) := by
  unfold basicParse
  rw [hdp]
  simp only [harch, hcd, hpp, if_false, Bool.true_eq_false, if_neg, reduceCtorEq]

theorem basicParse_noPages {body : OfdDocBody} {archive : String → Option DocJson}
    {dp : String} {dj : DocJson}
    (hdp : docPathOf body = some dp)
    (harch : archive (normalizeZipPath dp) = some dj)
    (hcd : dj.hasCommonData = true)
    (hpp : basicPagePaths dj (getDocDirectory (normalizeZipPath dp)) = []) :
    basicParse body archive = Except.error "Invalid OFD: no pages" := by
  unfold basicParse
  rw [hdp]
  simp only [harch, hcd, hpp, Bool.true_eq_false, if_neg, if_true, if_false, reduceCtorEq]

theorem firstResolved_cons (c : Option String) (rest : List (Option String)) (d : String) :
    firstResolved (c :: rest) d =
      match resolveCandOne c d with
      | some r => some r
      | none => firstResolved rest d := by
  have h1 : firstResolved (c :: rest) d =
      match normalizePageReference c d with
      | some r => if r = "" then firstResolved rest d else some r
      | none => firstResolved rest d := rfl
  have h2 : resolveCandOne c d =
      match normalizePageReference c d with
      | some r => if r = "" then none else some r
      | none => none := rfl
  rw [h1, h2]
  rcases normalizePageReference c d with _ | r
  · rfl
  · by_cases he : r = "" <;> simp [he]

/-! ### Claim theorems -/

/-- C1: a document cache entry is returned exactly when its captured
mtime equals the file's current mtime — a matching lookup returns the
stored entry without re-parsing, a differing mtime re-reads, re-parses
and stores a fresh entry keyed under the new mtime that supersedes the
old one, and the same comparison governs the page cache (a stale page
entry is never returned: the result always carries the current mtime and
differs from the stale entry). -/
theorem cache_mtime_governs (st : SvcState) (key : String) (mtimeMs : Int)
    (bytes : String) (parse : String → Except String ParsedDoc) :
    (∀ e, mapGet st.docCache key = some e → e.mtimeMs = mtimeMs →
      loadDoc st key mtimeMs bytes parse = (Except.ok e, st, 0)) ∧
    (∀ e d, mapGet st.docCache key = some e → e.mtimeMs ≠ mtimeMs →
      parse bytes = Except.ok d →
      loadDoc st key mtimeMs bytes parse =
        (Except.ok { doc := d, buf := bytes, key := key, mtimeMs := mtimeMs },
         { st with
            docCache :=
              mapSet st.docCache key { doc := d, buf := bytes, key := key, mtimeMs := mtimeMs } },
         1) ∧
      mapGet (mapSet st.docCache key { doc := d, buf := bytes, key := key, mtimeMs := mtimeMs })
          key = some { doc := d, buf := bytes, key := key, mtimeMs := mtimeMs }) ∧
    (∀ (pc : List (String × CacheEntryPage)) (ck : String) (mt : Int)
       (rres : Except String RenderedPage) (pe : CacheEntryPage),
      mapGet pc ck = some pe → pe.docMtimeMs ≠ mt →
      (pageFill pc ck mt rres).2.2 = 1 ∧
      ∀ pe', (pageFill pc ck mt rres).1 = Except.ok pe' →
        pe'.docMtimeMs = mt ∧ pe' ≠ pe) := by
  refine ⟨?_, ?_, ?_⟩
  · intro e he hm
    unfold loadDoc
    simp [he, hm]
  · intro e d he hm hp
    constructor
    · unfold loadDoc
      simp [he, hm, hp]
    · exact mapGet_mapSet _ _ _
  · intro pc ck mt rres pe hpe hm
    unfold pageFill
    simp only [hpe, hm, if_false]
    rcases rres with err | r
    · refine ⟨rfl, ?_⟩
      intro pe' h
      simp at h
    · refine ⟨rfl, ?_⟩
      intro pe' h
      simp only [Except.ok.injEq] at h
      subst h
      refine ⟨rfl, ?_⟩
      intro hEq
      exact hm (by rw [← hEq])

/-- C1 witness: on the concrete cached state `svc1`, a matching lookup
(mtime 1) hits without a parse, a differing lookup (mtime 2) re-parses
and stores the fresh entry under mtime 2, and a stale page entry forces
a render. -/
theorem cache_mtime_governs_witness :
    loadDoc svc1 "k" 1 "b" sampleParse = (Except.ok sampleEntry, svc1, 0) ∧
    loadDoc svc1 "k" 2 "b" sampleParse =
      (Except.ok { doc := sampleDoc, buf := "b", key := "k", mtimeMs := 2 },
       { svc1 with
          docCache :=
            mapSet svc1.docCache "k" { doc := sampleDoc, buf := "b", key := "k", mtimeMs := 2 } },
       1) ∧
    (pageFill [("k#1", samplePageEntry)] "k#1" 2 (Except.ok sampleRendered)).2.2 = 1 := by
  refine ⟨?_, ?_, ?_⟩
  · exact (cache_mtime_governs svc1 "k" 1 "b" sampleParse).1 sampleEntry (by decide) (by decide)
  · exact ((cache_mtime_governs svc1 "k" 2 "b" sampleParse).2.1 sampleEntry sampleDoc
      (by decide) (by decide) rfl).1
  · exact ((cache_mtime_governs svc1 "k" 2 "b" sampleParse).2.2
      [("k#1", samplePageEntry)] "k#1" 2 (Except.ok sampleRendered) samplePageEntry
      (by decide) (by decide)).1

/-- C2: a page number below 1 or above `metadata.pages` makes both
`getPage` and `getText` fail with the invalid-page error before any
render: the render count is 0 and the page cache is untouched. -/
theorem invalid_page_rejected (st : SvcState) (key : String) (mtimeMs : Int)
    (bytes : String) (page : Int) (parse : String → Except String ParsedDoc)
    (render : String → ParsedDoc → Int → Except String RenderedPage)
    (e : CacheEntryDoc) (st1 : SvcState) (n : ℕ)
    (hl : loadDoc st key mtimeMs bytes parse = (Except.ok e, st1, n))
    (hp : page < 1 ∨ page > (e.doc.meta.pages : Int)) :
    getPage st key mtimeMs bytes page parse render =
      (Except.error "Invalid page index", st1, n, 0) ∧
    getText st key mtimeMs bytes page parse render =
      (Except.error "Invalid page index", st1, n, 0) ∧
    st1.pageCache = st.pageCache := by
  refine ⟨?_, ?_, (loadDoc_ok hl).2.2⟩
  · unfold getPage
    rw [hl]
    simp [hp]
  · unfold getText
    rw [hl]
    simp [hp]

/-- C2 witness: page 0 of the one-page sample document is rejected with
no render and an unchanged (empty) page cache. -/
theorem invalid_page_rejected_witness :
    getPage emptySvc "k" 1 "b" 0 sampleParse sampleRender =
      (Except.error "Invalid page index",
       { emptySvc with docCache := mapSet emptySvc.docCache "k" sampleEntry }, 1, 0) ∧
    getText emptySvc "k" 1 "b" 0 sampleParse sampleRender =
      (Except.error "Invalid page index",
       { emptySvc with docCache := mapSet emptySvc.docCache "k" sampleEntry }, 1, 0) := by
  have h := invalid_page_rejected emptySvc "k" 1 "b" 0 sampleParse sampleRender
    sampleEntry { emptySvc with docCache := mapSet emptySvc.docCache "k" sampleEntry } 1
    (by rfl) (by decide)
  exact ⟨h.1, h.2.1⟩

/-- C10: `getPage` and `getText` share one page-cache entry keyed by
`(canonical path, page)`: whichever runs first populates it, the other
then serves from it with no parse and no render, and the text items
always come from the same cached entry as the served SVG. -/
theorem page_text_share_entry (st : SvcState) (key : String) (mtimeMs : Int)
    (bytes : String) (page : Int) (parse : String → Except String ParsedDoc)
    (render : String → ParsedDoc → Int → Except String RenderedPage) :
    (∀ b st' pcnt rcnt,
      getPage st key mtimeMs bytes page parse render = (Except.ok b, st', pcnt, rcnt) →
      ∃ pe, mapGet st'.pageCache (key ++ "#" ++ toString page) = some pe ∧ b = pe.svg ∧
        getText st' key mtimeMs bytes page parse render = (Except.ok pe.text, st', 0, 0)) ∧
    (∀ items st' pcnt rcnt,
      getText st key mtimeMs bytes page parse render = (Except.ok items, st', pcnt, rcnt) →
      ∃ pe, mapGet st'.pageCache (key ++ "#" ++ toString page) = some pe ∧ items = pe.text ∧
        getPage st' key mtimeMs bytes page parse render = (Except.ok pe.svg, st', 0, 0)) := by
  constructor
  · intro b st' pcnt rcnt h
    obtain ⟨e, pe, hd, hm, hr, hp, hpm, hb⟩ := getPage_ok_state h
    exact ⟨pe, hp, hb, getText_cached hd hm hr hp hpm⟩
  · intro items st' pcnt rcnt h
    obtain ⟨e, pe, hd, hm, hr, hp, hpm, hi⟩ := getText_ok_state h
    exact ⟨pe, hp, hi, getPage_cached hd hm hr hp hpm⟩

/-- C10 witness: after a cold `getPage` on the sample service, `getText`
serves the very entry `getPage` stored, with zero parses and renders. -/
theorem page_text_share_entry_witness :
    getText ((getPage emptySvc "k" 1 "b" 1 sampleParse sampleRender).2.1) "k" 1 "b" 1
        sampleParse sampleRender =
      (Except.ok [sampleItem], (getPage emptySvc "k" 1 "b" 1 sampleParse sampleRender).2.1,
       0, 0) := by
  have happ := (page_text_share_entry emptySvc "k" 1 "b" 1 sampleParse sampleRender).1
    "<svg/>" ((getPage emptySvc "k" 1 "b" 1 sampleParse sampleRender).2.1) 1 1 (by rfl)
  obtain ⟨pe, hp, hb, ht⟩ := happ
  have hpe : pe = { svg := "<svg/>", text := [sampleItem], docMtimeMs := 1 } := by
    have h2 : mapGet ((getPage emptySvc "k" 1 "b" 1 sampleParse sampleRender).2.1).pageCache
        ("k" ++ "#" ++ toString (1 : Int)) =
        some { svg := "<svg/>", text := [sampleItem], docMtimeMs := 1 } := by decide
    rw [hp] at h2
    exact (Option.some.injEq _ _).mp h2
  rw [hpe] at ht
  exact ht

/-- C3 counterexample: a document whose `PhysicalBox` is `"0 0 0 297"`
is accepted by the basic strategy's parse, yet its `widthMM` is 0 —
not a positive real as the claim states. -/
theorem box_positive_counterexample :
    (basicParse c3Body c3Archive).toOption.map (fun d => d.meta.widthMM) = some 0 ∧
    ¬ (0 : ℚ) < 0 := by
  constructor
  · with_unfolding_all decide
  · decide

/-- C3 (amended): for every accepted input, `widthMM`/`heightMM` are
exactly the physical-box computation — defaulting to 210 resp. 297 when
the box is absent, falsy, or the corresponding token is not a finite
number, and depending only on the third and fourth whitespace-separated
tokens — but they are not necessarily positive (any finite parsed value,
including 0 or a negative, is kept). -/
theorem box_defaults (s t : String) (body : OfdDocBody)
    (archive : String → Option DocJson) (d : ParsedDoc) (dp : String) (dj : DocJson)
    (hs : s ≠ "") (ht : t ≠ "")
    (hok : basicParse body archive = Except.ok d)
    (hdp : docPathOf body = some dp)
    (harch : archive (normalizeZipPath dp) = some dj) :
    computeBox none = (210, 297) ∧
    computeBox (some "") = (210, 297) ∧
    ((jsSplitWs s)[2]?.bind jsParseFloat = none → (computeBox (some s)).1 = 210) ∧
    ((jsSplitWs s)[3]?.bind jsParseFloat = none → (computeBox (some s)).2 = 297) ∧
    (∀ w, (jsSplitWs s)[2]?.bind jsParseFloat = some w → (computeBox (some s)).1 = w) ∧
    (∀ h, (jsSplitWs s)[3]?.bind jsParseFloat = some h → (computeBox (some s)).2 = h) ∧
    ((jsSplitWs s)[2]? = (jsSplitWs t)[2]? →
      (jsSplitWs s)[3]? = (jsSplitWs t)[3]? →
      computeBox (some s) = computeBox (some t)) ∧
    (d.meta.widthMM = (computeBox dj.physicalBox).1 ∧
     d.meta.heightMM = (computeBox dj.physicalBox).2) := by
  refine ⟨by with_unfolding_all decide, by with_unfolding_all decide, ?_, ?_, ?_, ?_, ?_, ?_⟩
  · intro h; simp [computeBox, hs, h]
  · intro h; simp [computeBox, hs, h]
  · intro w h; simp [computeBox, hs, h]
  · intro h' hh; simp [computeBox, hs, hh]
  · intro h2 h3; simp [computeBox, hs, ht, h2, h3]
  · have hcd : dj.hasCommonData = true := by
      cases h : dj.hasCommonData
      · exfalso
        unfold basicParse at hok
        rw [hdp] at hok
        simp [harch, h] at hok
      · rfl
    by_cases hpp : basicPagePaths dj (getDocDirectory (normalizeZipPath dp)) = []
    · rw [basicParse_noPages hdp harch hcd hpp] at hok
      simp at hok
    · rw [basicParse_ok_eq hdp harch hcd hpp] at hok
      simp only [Except.ok.injEq] at hok
      subst hok
      exact ⟨rfl, rfl⟩

/-- C3 witness: the defaults theorem instantiated at the counterexample
document (box `"0 0 0 297"`), whose height token 297 is kept. -/
theorem box_defaults_witness :
    (computeBox (some "0 0 0 297")).2 = 297 ∧ computeBox none = (210, 297) := by
  have h := box_defaults "0 0 0 297" "x" c3Body c3Archive
    (basicParseResult c3Body "Doc_0/Document.xml" c3DocJson) "Doc_0/Document.xml" c3DocJson
    (by decide) (by decide)
    (basicParse_ok_eq (by decide) (by decide) (by decide) (by decide))
    (by decide) (by decide)
  exact ⟨h.2.2.2.2.2.1 297 (by with_unfolding_all decide), h.1⟩

/-- C4: a page node with no resolvable reference is dropped without an
error, parse fails with `"Invalid OFD: no pages"` exactly when the
resolved page list is empty, and otherwise `metadata.pages` equals the
length of the resolved page-reference list. -/
theorem no_pages_exactly_when_empty (body : OfdDocBody)
    (archive : String → Option DocJson) (dp : String) (dj : DocJson) (q : PageNode)
    (hdp : docPathOf body = some dp)
    (harch : archive (normalizeZipPath dp) = some dj)
    (hcd : dj.hasCommonData = true)
    (hq : resolvePagePath q (getDocDirectory (normalizeZipPath dp)) = none) :
    (basicParse body archive = Except.error "Invalid OFD: no pages" ↔
      basicPagePaths dj (getDocDirectory (normalizeZipPath dp)) = []) ∧
    (∀ d, basicParse body archive = Except.ok d →
      d.meta.pages = (basicPagePaths dj (getDocDirectory (normalizeZipPath dp))).length ∧
      d.pageRefs = basicPagePaths dj (getDocDirectory (normalizeZipPath dp))) ∧
    basicPagePaths { dj with pages := dj.pages ++ [some q] }
        (getDocDirectory (normalizeZipPath dp)) =
      basicPagePaths dj (getDocDirectory (normalizeZipPath dp)) := by
  refine ⟨⟨?_, ?_⟩, ?_, ?_⟩
  · intro herr
    by_contra hpp
    rw [basicParse_ok_eq hdp harch hcd hpp] at herr
    simp at herr
  · intro hpp
    exact basicParse_noPages hdp harch hcd hpp
  · intro d hok
    by_cases hpp : basicPagePaths dj (getDocDirectory (normalizeZipPath dp)) = []
    · rw [basicParse_noPages hdp harch hcd hpp] at hok
      simp at hok
    · rw [basicParse_ok_eq hdp harch hcd hpp] at hok
      simp only [Except.ok.injEq] at hok
      subst hok
      exact ⟨rfl, rfl⟩
  · simp [basicPagePaths, hq]

/-- C4 witness: on the counterexample document (one resolvable page and
one unresolvable node appended), parse succeeds with `pages = 1` and the
no-pages error is equivalent to emptiness of the resolved list. -/
theorem no_pages_exactly_when_empty_witness :
    (basicParse c3Body c3Archive = Except.error "Invalid OFD: no pages" ↔
      basicPagePaths c3DocJson (getDocDirectory (normalizeZipPath "Doc_0/Document.xml")) = []) ∧
    basicPagePaths
        { c3DocJson with pages := c3DocJson.pages ++
            [some { baseLoc := none, baseLocLower := none, base := none, file := none
                    fileLower := none, content := none }] }
        (getDocDirectory (normalizeZipPath "Doc_0/Document.xml")) =
      basicPagePaths c3DocJson (getDocDirectory (normalizeZipPath "Doc_0/Document.xml")) := by
  have h := no_pages_exactly_when_empty c3Body c3Archive "Doc_0/Document.xml" c3DocJson
    { baseLoc := none, baseLocLower := none, base := none, file := none
      fileLower := none, content := none }
    (by rfl) (by rfl) (by rfl) (by rfl)
  exact ⟨h.1, h.2.2⟩

/-- C5 counterexample: for a relative reference that already starts with
the document directory, the source returns the normalized reference
unchanged instead of joining it onto the directory, so "the resolved
path of a reference R with document directory D equals D joined with the
normalized R" fails at R = `"Doc_0/Pages/P1.xml"`, D = `"Doc_0/"`. -/
theorem page_ref_join_counterexample :
    normalizePageReference (some "Doc_0/Pages/P1.xml") "Doc_0/" = some "Doc_0/Pages/P1.xml" ∧
    normalizeZipPath (posixJoin "Doc_0/" (normalizeZipPath "Doc_0/Pages/P1.xml")) =
      "Doc_0/Doc_0/Pages/P1.xml" ∧
    ("Doc_0/Pages/P1.xml" : String) ≠ "Doc_0/Doc_0/Pages/P1.xml" := by
  refine ⟨by decide, by decide, by decide⟩

/-- C5 (amended): candidates are tried in the exact order base-location
attribute, file attribute, nested content reference; a relative
reference is resolved by joining the normalized reference onto the
document-body descriptor's directory — except that a reference whose
normalization already starts with that directory (or equals it without
the trailing slash) is returned unchanged, and an empty document
directory returns the normalized reference as-is. -/
theorem page_ref_resolution (p : PageNode) (d v : String) :
    (∀ r, resolveCandOne (jsOrS (jsOrS p.baseLoc p.baseLocLower) p.base) d = some r →
      resolvePagePath p d = some r) ∧
    (resolveCandOne (jsOrS (jsOrS p.baseLoc p.baseLocLower) p.base) d = none →
      ∀ r, resolveCandOne (jsOrS p.file p.fileLower) d = some r →
        resolvePagePath p d = some r) ∧
    (resolveCandOne (jsOrS (jsOrS p.baseLoc p.baseLocLower) p.base) d = none →
      resolveCandOne (jsOrS p.file p.fileLower) d = none →
      resolvePagePath p d = firstResolved (contentCandidates p) d) ∧
    (v ≠ "" → jsTrim v ≠ "" → d ≠ "" →
      ¬ strStartsWith (normalizeZipPath (jsTrim v))
          (if strEndsWith d "/" then d else d ++ "/") = true →
      normalizeZipPath (jsTrim v) ≠ String.mk d.data.dropLast →
      normalizePageReference (some v) d =
        some (normalizeZipPath (posixJoin (if strEndsWith d "/" then d else d ++ "/")
          (normalizeZipPath (jsTrim v))))) ∧
    (v ≠ "" → jsTrim v ≠ "" → d ≠ "" →
      (strStartsWith (normalizeZipPath (jsTrim v))
          (if strEndsWith d "/" then d else d ++ "/") = true ∨
       normalizeZipPath (jsTrim v) = String.mk d.data.dropLast) →
      normalizePageReference (some v) d = some (normalizeZipPath (jsTrim v))) ∧
    (v ≠ "" → jsTrim v ≠ "" →
      normalizePageReference (some v) "" = some (normalizeZipPath (jsTrim v))) := by
  refine ⟨?_, ?_, ?_, ?_, ?_, ?_⟩
  · intro r h
    unfold resolvePagePath pageCandidates
    simp only [List.cons_append, List.nil_append]
    rw [firstResolved_cons, h]
  · intro h1 r h2
    unfold resolvePagePath pageCandidates
    simp only [List.cons_append, List.nil_append]
    rw [firstResolved_cons, h1]
    show firstResolved _ d = some r
    rw [firstResolved_cons, h2]
  · intro h1 h2
    unfold resolvePagePath pageCandidates
    simp only [List.cons_append, List.nil_append]
    rw [firstResolved_cons, h1]
    show firstResolved _ d = _
    rw [firstResolved_cons, h2]
  · intro hv htr hd hpre hlast
    unfold normalizePageReference
    simp [hv, htr, hd, hpre, hlast]
  · intro hv htr hd hcase
    unfold normalizePageReference
    rcases hcase with hc | hc
    · simp [hv, htr, hd, hc]
    · simp [hv, htr, hd, hc]
  · intro hv htr
    unfold normalizePageReference
    simp [hv, htr]

/-- C5 witness: for a node whose base-location attribute resolves, the
result is that candidate; and the relative reference
`"Pages/Page_0/Content.xml"` with directory `"Doc_0/"` is joined onto
the directory. -/
theorem page_ref_resolution_witness :
    resolvePagePath c3PageNode "Doc_0/" = some "Doc_0/Pages/Page_0/Content.xml" ∧
    normalizePageReference (some "Pages/Page_0/Content.xml") "Doc_0/" =
      some (normalizeZipPath (posixJoin
        (if strEndsWith "Doc_0/" "/" then "Doc_0/" else "Doc_0/" ++ "/")
        (normalizeZipPath (jsTrim "Pages/Page_0/Content.xml")))) := by
  have h := page_ref_resolution c3PageNode "Doc_0/" "Pages/Page_0/Content.xml"
  constructor
  · exact h.1 "Doc_0/Pages/Page_0/Content.xml" (by decide)
  · exact h.2.2.2.1 (by decide) (by decide) (by decide) (by decide) (by decide)

/-- C6: a page whose traversal yields zero text runs renders
successfully with exactly the placeholder text element and an empty item
list; a page with runs yields one SVG text element and one item per run,
in traversal order. -/
theorem zero_runs_placeholder (doc : ParsedDoc) (archive : String → Option (List Layer))
    (i : Int) (p : String) (layers : List Layer)
    (hi : 0 ≤ i) (href : doc.pageRefs[i.toNat]? = some p) (hp : p ≠ "")
    (harch : archive (normalizeZipPath p) = some layers) :
    basicRenderPage doc archive i =
      Except.ok { svg := renderSvg doc.meta layers, text := renderItems layers } ∧
    (collectRuns layers = [] →
      renderSvgTexts layers = [placeholderElem] ∧ renderItems layers = []) ∧
    (collectRuns layers ≠ [] →
      (renderSvgTexts layers).length = (collectRuns layers).length) ∧
    (renderItems layers).length = (collectRuns layers).length ∧
    renderItems layers = (collectRuns layers).map runItem := by
  refine ⟨?_, ?_, ?_, ?_, rfl⟩
  · unfold basicRenderPage
    simp only [hi, if_pos]
    rw [href]
    simp [hp, harch]
  · intro h
    constructor
    · simp [renderSvgTexts, h]
    · simp [renderItems, h]
  · intro h
    simp [renderSvgTexts, renderItems, h]
  · simp [renderItems]

/-- C6 witness: page 0 of the sample document resolves to an empty layer
list, renders successfully, and produces exactly the placeholder element
with no text items. -/
theorem zero_runs_placeholder_witness :
    basicRenderPage sampleDoc emptyPageArchive 0 =
      Except.ok { svg := renderSvg sampleDoc.meta [emptyLayer], text := renderItems [emptyLayer] } ∧
    renderSvgTexts [emptyLayer] = [placeholderElem] ∧
    renderItems [emptyLayer] = [] := by
  have h := zero_runs_placeholder sampleDoc emptyPageArchive 0
    "Doc_0/Pages/Page_0/Content.xml" [emptyLayer]
    (by decide) (by decide) (by decide) (by decide)
  exact ⟨h.1, (h.2.1 (by decide)).1, (h.2.1 (by decide)).2⟩

/-- C9: the i-th SVG text element is built from the i-th returned text
item with XML escaping applied only to the embedded content, while the
item itself carries the original, unescaped run text. -/
theorem svg_escapes_item_text (layers : List Layer) (i : ℕ) :
    ((collectRuns layers).map svgTextElem)[i]? =
      ((renderItems layers)[i]?.map (fun it =>
        "<text x=\"" ++ jsNumToStr it.x ++ "\" y=\"" ++ jsNumToStr it.y ++
          "\" font-size=\"" ++ jsNumToStr it.size ++ "\" fill=\"#000\">" ++
          escapeXml it.text ++ "</text>")) ∧
    (renderItems layers)[i]? =
      ((collectRuns layers)[i]?.map (fun r =>
        { text := r.content, x := r.x, y := r.y, size := r.size })) := by
  constructor
  · rcases h : (collectRuns layers)[i]? with _ | r
    · simp [renderItems, h]
    · simp [renderItems, h, runItem, svgTextElem]
  · rcases h : (collectRuns layers)[i]? with _ | r
    · simp [renderItems, h]
    · simp [renderItems, h, runItem]

/-- C7: for a well-formed CLI metadata response with `pages = N`, page
references fall back to the synthetic tokens `page-1 .. page-N` exactly
when `pageRefs` is omitted or empty, each capability boolean defaults to
`true` exactly when its sub-flag is omitted with `capabilities` present
(a provided sub-flag is taken verbatim), and the built document's engine
is the CLI strategy's name. -/
theorem cli_parse_defaults (r : CliMetadataResponse) (nPages : ℕ) (c : CliCaps)
    (hn : r.meta.pages = nPages) :
    (cliBuildDoc r).engine = cliStrategyName ∧
    (r.pageRefs = none ∨ r.pageRefs = some [] →
      (cliBuildDoc r).pageRefs = syntheticPageRefs nPages ∧
      (syntheticPageRefs nPages).length = nPages ∧
      ∀ i, i < nPages → (syntheticPageRefs nPages)[i]? = some ("page-" ++ toString (i + 1))) ∧
    (∀ refs, r.pageRefs = some refs → 0 < refs.length → (cliBuildDoc r).pageRefs = refs) ∧
    (r.capabilities = some c →
      ((cliBuildDoc r).capabilities.text = c.text.getD true ∧
       (cliBuildDoc r).capabilities.vector = c.vector.getD true ∧
       (cliBuildDoc r).capabilities.images = c.images.getD true ∧
       (cliBuildDoc r).capabilities.annots = c.annots.getD true ∧
       (cliBuildDoc r).capabilities.sigs = c.sigs.getD true)) := by
  refine ⟨rfl, ?_, ?_, ?_⟩
  · intro h
    refine ⟨?_, ?_, ?_⟩
    · rcases h with h | h <;> simp [cliBuildDoc, h, hn]
    · simp [syntheticPageRefs]
    · intro i hilt
      simp [syntheticPageRefs, List.getElem?_map, hilt]
  · intro refs h hlen
    simp [cliBuildDoc, h, hlen]
  · intro h
    simp [cliBuildDoc, h]

/-- C7 witness: a response with `pages = 2`, no `pageRefs`, and a
`capabilities` object providing only `vector := false` yields the
synthetic tokens and the expected defaults. -/
theorem cli_parse_defaults_witness :
    (cliBuildDoc { meta := { sampleMeta with pages := 2 }
                   capabilities := some { text := none, vector := some false, images := none
                                          annots := none, sigs := none }
                   pageRefs := none }).pageRefs = syntheticPageRefs 2 ∧
    (cliBuildDoc { meta := { sampleMeta with pages := 2 }
                   capabilities := some { text := none, vector := some false, images := none
                                          annots := none, sigs := none }
                   pageRefs := none }).capabilities.vector = false ∧
    (cliBuildDoc { meta := { sampleMeta with pages := 2 }
                   capabilities := some { text := none, vector := some false, images := none
                                          annots := none, sigs := none }
                   pageRefs := none }).capabilities.text = true := by
  have h := cli_parse_defaults
    { meta := { sampleMeta with pages := 2 }
      capabilities := some { text := none, vector := some false, images := none
                             annots := none, sigs := none }
      pageRefs := none }
    2
    { text := none, vector := some false, images := none, annots := none, sigs := none }
    (by decide)
  refine ⟨(h.2.1 (Or.inl rfl)).1, ?_, ?_⟩
  · have hc := h.2.2.2 rfl
    simpa using hc.2.1
  · have hc := h.2.2.2 rfl
    simpa using hc.1

/-- C8: for every exit path of the CLI strategy's `parse` and
`renderPage` — success, subprocess error, and timeout alike — the
temporary working directory's removal is attempted before returning
exactly when the keep-artifacts flag is unset (and it is the final
action); when the flag is set no removal happens; each invocation begins
by creating the directory. -/
theorem cli_workdir_cleanup (keep : Bool) (w : String)
    (execRes : Except String String) (decodeMeta : String → Option CliMetadataResponse)
    (i : Int) (execR : Except String Unit) (svgR : Option String)
    (jsonR : Option (List PageTextItem)) :
    ((FsEvent.rmEv w ∈ (cliParseRun keep w execRes decodeMeta).2) ↔ keep = false) ∧
    ((FsEvent.rmEv w ∈ (cliRenderRun keep w i execR svgR jsonR).2) ↔ keep = false) ∧
    (keep = false →
      (cliParseRun keep w execRes decodeMeta).2.getLast? = some (FsEvent.rmEv w) ∧
      (cliRenderRun keep w i execR svgR jsonR).2.getLast? = some (FsEvent.rmEv w)) ∧
    (cliParseRun keep w execRes decodeMeta).2.head? = some (FsEvent.mkdirEv w) ∧
    (cliRenderRun keep w i execR svgR jsonR).2.head? = some (FsEvent.mkdirEv w) := by
  cases keep
  · refine ⟨?_, ?_, ?_, ?_, ?_⟩
    · simp [cliParseRun]
    · simp [cliRenderRun]
    · intro h
      constructor
      · simp [cliParseRun]
      · simp [cliRenderRun]
    · simp [cliParseRun]
    · simp [cliRenderRun]
  · refine ⟨?_, ?_, ?_, ?_, ?_⟩
    · simp [cliParseRun]
    · simp [cliRenderRun]
    · intro h
      simp at h
    · simp [cliParseRun]
    · simp [cliRenderRun]

/-- C8 witness: with the flag unset and a timed-out subprocess, both
invocations end by removing the working directory. -/
theorem cli_workdir_cleanup_witness :
    (cliParseRun false "wd" (Except.error "OFDRW CLI timed out after 20000ms")
        noMetaDecode).2.getLast? = some (FsEvent.rmEv "wd") ∧
    (cliRenderRun false "wd" 0 (Except.error "OFDRW CLI timed out after 20000ms")
        none none).2.getLast? = some (FsEvent.rmEv "wd") := by
  exact (cli_workdir_cleanup false "wd" (Except.error "OFDRW CLI timed out after 20000ms")
    noMetaDecode 0 (Except.error "OFDRW CLI timed out after 20000ms") none none).2.2.1 rfl

end OfdPreview
